import Mathlib

/-!
Shallow embedding of `src/app.py` (AI Career Assistant).

The similarity scorer `calculate_match_score` (app.py lines 65-73) delegates to
scikit-learn's `TfidfVectorizer(stop_words='english')` and `cosine_similarity`.
We embed the mathematical semantics of those library calls in exact real
arithmetic: word tokenization (maximal runs of word characters of length >= 2,
lowercased), removal of scikit-learn's built-in English stop words, smoothed
inverse document frequency over the two-document corpus, and the cosine of the
two weighted term vectors.  `TfidfVectorizer.fit_transform` raises
`ValueError` when the extracted vocabulary is empty; we model the raised
exception as `none`.
-/

/-- Word characters of Python's regex `\w` (ASCII fragment): letters, digits
and underscore.  scikit-learn's default `token_pattern` is `(?u)\b\w\w+\b`. -/
def isWordChar (c : Char) : Bool := c.isAlphanum || c == '_'

/-- Splits a character list into the maximal runs of word characters, the
accumulator holding the current (reversed) run. -/
def wordRuns : List Char → List Char → List (List Char)
  | [], acc => if acc = [] then [] else [acc.reverse]
  | c :: cs, acc =>
    if isWordChar c then wordRuns cs (c :: acc)
    else if acc = [] then wordRuns cs [] else acc.reverse :: wordRuns cs []

/-- The token stream of scikit-learn's default analyzer: lowercase the text,
then take every maximal run of word characters of length at least 2
(`token_pattern = (?u)\b\w\w+\b`). -/
def tokenize (s : String) : List String :=
  ((wordRuns (s.data.map Char.toLower) []).filter (fun r => 2 ≤ r.length)).map
    (fun r => String.mk r)

/-- scikit-learn's built-in `ENGLISH_STOP_WORDS` frozenset
(`sklearn/feature_extraction/_stop_words.py`), selected by
`TfidfVectorizer(stop_words='english')` at app.py line 70. -/
def ENGLISH_STOP_WORDS : List String :=
  ["a", "about", "above", "across", "after", "afterwards", "again", "against",
   "all", "almost", "alone", "along", "already", "also", "although", "always",
   "am", "among", "amongst", "amoungst", "amount", "an", "and", "another",
   "any", "anyhow", "anyone", "anything", "anyway", "anywhere", "are",
   "around", "as", "at", "back", "be", "became", "because", "become",
   "becomes", "becoming", "been", "before", "beforehand", "behind", "being",
   "below", "beside", "besides", "between", "beyond", "bill", "both",
   "bottom", "but", "by", "call", "can", "cannot", "cant", "co", "con",
   "could", "couldnt", "cry", "de", "describe", "detail", "do", "done",
   "down", "due", "during", "each", "eg", "eight", "either", "eleven",
   "else", "elsewhere", "empty", "enough", "etc", "even", "ever", "every",
   "everyone", "everything", "everywhere", "except", "few", "fifteen",
   "fifty", "fill", "find", "fire", "first", "five", "for", "former",
   "formerly", "forty", "found", "four", "from", "front", "full", "further",
   "get", "give", "go", "had", "has", "hasnt", "have", "he", "hence", "her",
   "here", "hereafter", "hereby", "herein", "hereupon", "hers", "herself",
   "him", "himself", "his", "how", "however", "hundred", "i", "ie", "if",
   "in", "inc", "indeed", "interest", "into", "is", "it", "its", "itself",
   "keep", "last", "latter", "latterly", "least", "less", "ltd", "made",
   "many", "may", "me", "meanwhile", "might", "mill", "mine", "more",
   "moreover", "most", "mostly", "move", "much", "must", "my", "myself",
   "name", "namely", "neither", "never", "nevertheless", "next", "nine",
   "no", "nobody", "none", "noone", "nor", "not", "nothing", "now",
   "nowhere", "of", "off", "often", "on", "once", "one", "only", "onto",
   "or", "other", "others", "otherwise", "our", "ours", "ourselves", "out",
   "over", "own", "part", "per", "perhaps", "please", "put", "rather", "re",
   "same", "see", "seem", "seemed", "seeming", "seems", "serious", "several",
   "she", "should", "show", "side", "since", "sincere", "six", "sixty", "so",
   "some", "somehow", "someone", "something", "sometime", "sometimes",
   "somewhere", "still", "such", "system", "take", "ten", "than", "that",
   "the", "their", "them", "themselves", "then", "thence", "there",
   "thereafter", "thereby", "therefore", "therein", "thereupon", "these",
   "they", "thick", "thin", "third", "this", "those", "though", "three",
   "through", "throughout", "thru", "thus", "to", "together", "too", "top",
   "toward", "towards", "twelve", "twenty", "two", "un", "under", "until",
   "up", "upon", "us", "very", "via", "was", "we", "well", "were", "what",
   "whatever", "when", "whence", "whenever", "where", "whereafter",
   "whereas", "whereby", "wherein", "whereupon", "wherever", "whether",
   "which", "while", "whither", "who", "whoever", "whole", "whom", "whose",
   "why", "will", "with", "within", "without", "would", "yet", "you",
   "your", "yours", "yourself", "yourselves"]

/-- The document's token stream after the vectorizer removes stop words. -/
def filteredTokens (s : String) : List String :=
  (tokenize s).filter (fun t => t ∉ ENGLISH_STOP_WORDS)

/-- The vocabulary `fit_transform` builds from the two-document corpus
`[resume_text, job_description]`: the distinct non-stop-word terms. -/
def vocab (a b : String) : Finset String :=
  (filteredTokens a ++ filteredTokens b).toFinset

/-- Raw term frequency of term `t` in document `d`. -/
def tf (d t : String) : ℕ := (filteredTokens d).count t

/-- Document frequency of term `t` in the two-document corpus. -/
def df (a b t : String) : ℕ :=
  (if t ∈ filteredTokens a then 1 else 0) + (if t ∈ filteredTokens b then 1 else 0)

/-- Smoothed inverse document frequency (`smooth_idf=True`, the
`TfidfVectorizer` default) for a corpus of `n = 2` documents:
`idf(t) = ln((1 + n) / (1 + df(t))) + 1`. -/
noncomputable def idf (a b t : String) : ℝ :=
  Real.log (3 / (1 + (df a b t : ℝ))) + 1

/-- Entry of the TF-IDF weighted term vector of document `d` (before L2
normalization; the normalizations of `TfidfVectorizer` and of
`cosine_similarity` cancel in the cosine below). -/
noncomputable def tfidf (a b d t : String) : ℝ := (tf d t : ℝ) * idf a b t

/-- Inner product of the two TF-IDF vectors over the corpus vocabulary. -/
noncomputable def dotProd (a b : String) : ℝ :=
  ∑ t ∈ vocab a b, tfidf a b a t * tfidf a b b t

/-- Squared Euclidean norm of document `d`'s TF-IDF vector. -/
noncomputable def sqNorm (a b d : String) : ℝ :=
  ∑ t ∈ vocab a b, (tfidf a b d t) ^ 2

/-- `cosine_similarity(tfidf_matrix[0:1], tfidf_matrix[1:2])[0][0]`: the
cosine of the two weighted vectors.  A zero vector yields 0 (scikit-learn
substitutes norm 1 for zero norms; Lean's division by zero agrees). -/
noncomputable def cosineSim (a b : String) : ℝ :=
  dotProd a b / (Real.sqrt (sqNorm a b a) * Real.sqrt (sqNorm a b b))

/-- Python's `int()` conversion: truncation toward zero. -/
noncomputable def pyInt (x : ℝ) : ℤ := if 0 ≤ x then ⌊x⌋ else ⌈x⌉

/-- app.py lines 65-73, `calculate_match_score(resume_text, job_description)`.
`if not resume_text or not job_description: return 0` guards empty strings
(Python string falsiness); then the vectorizer is fitted on the two texts and
`int(cosine_sim[0][0] * 100)` is returned.  `none` models the `ValueError`
that `fit_transform` raises on an empty vocabulary. -/
noncomputable def calculate_match_score (resume_text job_description : String) :
    Option ℤ :=
  if resume_text = "" ∨ job_description = "" then some 0
  else if vocab resume_text job_description = ∅ then none
  else some (pyInt (cosineSim resume_text job_description * 100))

/-! ### Basic facts about the TF-IDF model -/

lemma df_le_two (a b t : String) : df a b t ≤ 2 := by
  unfold df; split_ifs <;> norm_num

lemma one_le_idf (a b t : String) : 1 ≤ idf a b t := by
  unfold idf
  have h2 : (df a b t : ℝ) ≤ 2 := by exact_mod_cast df_le_two a b t
  have hpos : (0:ℝ) < 1 + (df a b t : ℝ) := by positivity
  have : (0:ℝ) ≤ Real.log (3 / (1 + (df a b t : ℝ))) := by
    apply Real.log_nonneg
    rw [le_div_iff₀ hpos]
    linarith
  linarith

lemma tfidf_nonneg (a b d t : String) : 0 ≤ tfidf a b d t :=
  mul_nonneg (Nat.cast_nonneg _) (le_trans zero_le_one (one_le_idf a b t))

lemma dotProd_nonneg (a b : String) : 0 ≤ dotProd a b :=
  Finset.sum_nonneg fun t _ => mul_nonneg (tfidf_nonneg a b a t) (tfidf_nonneg a b b t)

lemma sqNorm_nonneg (a b d : String) : 0 ≤ sqNorm a b d :=
  Finset.sum_nonneg fun _ _ => sq_nonneg _

lemma cosineSim_nonneg (a b : String) : 0 ≤ cosineSim a b :=
  div_nonneg (dotProd_nonneg a b) (mul_nonneg (Real.sqrt_nonneg _) (Real.sqrt_nonneg _))

lemma cosineSim_le_one (a b : String) : cosineSim a b ≤ 1 := by
  unfold cosineSim
  rcases eq_or_lt_of_le
      (mul_nonneg (Real.sqrt_nonneg (sqNorm a b a)) (Real.sqrt_nonneg (sqNorm a b b)))
    with hz | hpos
  · rw [← hz, div_zero]; norm_num
  · rw [div_le_one hpos]
    have hcs : dotProd a b ^ 2 ≤ sqNorm a b a * sqNorm a b b := by
      unfold dotProd sqNorm
      exact Finset.sum_mul_sq_le_sq_mul_sq _ _ _
    calc dotProd a b = Real.sqrt (dotProd a b ^ 2) :=
          (Real.sqrt_sq (dotProd_nonneg a b)).symm
      _ ≤ Real.sqrt (sqNorm a b a * sqNorm a b b) := Real.sqrt_le_sqrt hcs
      _ = Real.sqrt (sqNorm a b a) * Real.sqrt (sqNorm a b b) :=
          Real.sqrt_mul (sqNorm_nonneg a b a) _

lemma score_normal {a b : String} (ha : a ≠ "") (hb : b ≠ "")
    (hv : vocab a b ≠ ∅) :
    calculate_match_score a b = some ⌊cosineSim a b * 100⌋ := by
  unfold calculate_match_score
  rw [if_neg (by rintro (h | h) <;> [exact ha h; exact hb h]), if_neg hv]
  unfold pyInt
  rw [if_pos (mul_nonneg (cosineSim_nonneg a b) (by norm_num))]

lemma vocab_comm (a b : String) : vocab a b = vocab b a := by
  unfold vocab
  ext t
  simp only [List.mem_toFinset, List.mem_append]
  exact or_comm

lemma df_comm (a b t : String) : df a b t = df b a t := by
  unfold df; exact add_comm _ _

lemma idf_comm (a b t : String) : idf a b t = idf b a t := by
  unfold idf; rw [df_comm]

lemma tfidf_comm (a b d t : String) : tfidf a b d t = tfidf b a d t := by
  unfold tfidf; rw [idf_comm]

lemma dotProd_comm (a b : String) : dotProd a b = dotProd b a := by
  unfold dotProd
  rw [vocab_comm]
  exact Finset.sum_congr rfl fun t _ => by rw [tfidf_comm a b a, tfidf_comm a b b, mul_comm]

lemma sqNorm_comm (a b d : String) : sqNorm a b d = sqNorm b a d := by
  unfold sqNorm
  rw [vocab_comm]
  exact Finset.sum_congr rfl fun t _ => by rw [tfidf_comm]

lemma cosineSim_comm (a b : String) : cosineSim a b = cosineSim b a := by
  unfold cosineSim
  rw [dotProd_comm, sqNorm_comm a b a, sqNorm_comm a b b, mul_comm]

/-! ### Self-similarity -/

lemma vocab_self (a : String) : vocab a a = (filteredTokens a).toFinset := by
  unfold vocab
  ext t
  simp [List.mem_toFinset, List.mem_append]

lemma idf_self_eq_one {a t : String} (ht : t ∈ filteredTokens a) :
    idf a a t = 1 := by
  unfold idf df
  rw [if_pos ht]
  have h3 : (3 : ℝ) / (1 + ((1 + 1 : ℕ) : ℝ)) = 1 := by norm_num
  rw [h3, Real.log_one]
  norm_num

lemma cosineSim_self {a : String} (hv : vocab a a ≠ ∅) : cosineSim a a = 1 := by
  have hdot : dotProd a a = sqNorm a a a :=
    Finset.sum_congr rfl fun t _ => (sq (tfidf a a a t)).symm
  have hpos : 0 < sqNorm a a a := by
    obtain ⟨t, ht⟩ := Finset.nonempty_iff_ne_empty.2 hv
    have htok : t ∈ filteredTokens a := by
      have := ht
      rw [vocab_self] at this
      exact List.mem_toFinset.1 this
    refine Finset.sum_pos' (fun u _ => sq_nonneg _) ⟨t, ht, ?_⟩
    have htf : 1 ≤ tf a t := List.count_pos_iff.2 htok
    have h1 : (1:ℝ) ≤ tfidf a a a t := by
      unfold tfidf
      rw [idf_self_eq_one htok, mul_one]
      exact_mod_cast htf
    nlinarith
  unfold cosineSim
  rw [hdot, Real.mul_self_sqrt (le_of_lt hpos), div_self (ne_of_gt hpos)]

lemma score_self {a : String} (ha : a ≠ "") (hv : vocab a a ≠ ∅) :
    calculate_match_score a a = some 100 := by
  rw [score_normal ha ha hv, cosineSim_self hv]
  norm_num

/-! ### Disjoint documents -/

lemma dotProd_of_disjoint {a b : String}
    (hd : ∀ t, t ∈ filteredTokens a → t ∉ filteredTokens b) :
    dotProd a b = 0 := by
  unfold dotProd
  refine Finset.sum_eq_zero fun t _ => ?_
  by_cases hta : t ∈ filteredTokens a
  · have : tf b t = 0 := List.count_eq_zero.2 (hd t hta)
    unfold tfidf
    rw [this]
    push_cast
    ring
  · have : tf a t = 0 := List.count_eq_zero.2 hta
    unfold tfidf
    rw [this]
    push_cast
    ring

lemma score_disjoint {a b : String} (ha : a ≠ "") (hb : b ≠ "")
    (hd : ∀ t, t ∈ filteredTokens a → t ∉ filteredTokens b)
    (hv : vocab a b ≠ ∅) :
    calculate_match_score a b = some 0 := by
  rw [score_normal ha hb hv]
  unfold cosineSim
  rw [dotProd_of_disjoint hd, zero_div, zero_mul]
  norm_num

/-! ### Claims C1, C2, C4, C5, C6 -/

/-- C1: if either the resume text or the job description passed to
`calculate_match_score` is empty (Python falsiness of the empty string, the
`if not resume_text or not job_description` guard at app.py line 67), the
scorer returns 0 rather than raising an error. -/
theorem calculate_match_score_empty_input (a b : String) (h : a = "" ∨ b = "") :
    calculate_match_score a b = some 0 := by
  unfold calculate_match_score
  rw [if_pos h]

theorem calculate_match_score_empty_input_witness :
    (("" : String) = "" ∨ ("Python developer" : String) = "") ∧
      calculate_match_score "" "Python developer" = some 0 :=
  ⟨Or.inl rfl, calculate_match_score_empty_input "" "Python developer" (Or.inl rfl)⟩

/-- C2: whenever `calculate_match_score` returns normally on non-empty
documents, the returned value is an integer in `[0, 100]` (the cosine of two
nonnegative TF-IDF vectors lies in `[0, 1]` by Cauchy-Schwarz, and `int(x*100)`
maps it into `[0, 100]`). -/
theorem calculate_match_score_range (a b : String) (ha : a ≠ "") (hb : b ≠ "")
    (n : ℤ) (h : calculate_match_score a b = some n) : 0 ≤ n ∧ n ≤ 100 := by
  by_cases hv : vocab a b = ∅
  · unfold calculate_match_score at h
    rw [if_neg (by rintro (h' | h') <;> [exact ha h'; exact hb h']), if_pos hv] at h
    exact absurd h (by simp)
  · rw [score_normal ha hb hv] at h
    have hn : n = ⌊cosineSim a b * 100⌋ := (Option.some.inj h).symm
    subst hn
    constructor
    · exact Int.le_floor.2 (by push_cast; nlinarith [cosineSim_nonneg a b])
    · have h1 : cosineSim a b * 100 ≤ 100 := by nlinarith [cosineSim_le_one a b]
      calc ⌊cosineSim a b * 100⌋ ≤ ⌊(100 : ℝ)⌋ := Int.floor_le_floor h1
        _ = 100 := by norm_num

theorem calculate_match_score_range_witness :
    (("aa" : String) ≠ "" ∧ calculate_match_score "aa" "aa" = some 100) ∧
      0 ≤ (100 : ℤ) ∧ (100 : ℤ) ≤ 100 :=
  have hs : calculate_match_score "aa" "aa" = some 100 :=
    score_self (by decide) (by decide)
  ⟨⟨by decide, hs⟩, calculate_match_score_range "aa" "aa" (by decide) (by decide) 100 hs⟩

/-- C4: `calculate_match_score` is symmetric in its two arguments for
non-empty documents (the corpus vocabulary, document frequencies, dot product
and norms are all invariant under swapping the two texts). -/
theorem calculate_match_score_symm (a b : String) (ha : a ≠ "") (hb : b ≠ "") :
    calculate_match_score a b = calculate_match_score b a := by
  by_cases hv : vocab a b = ∅
  · have hv' : vocab b a = ∅ := by rw [← vocab_comm]; exact hv
    have hg1 : ¬(a = "" ∨ b = "") := by rintro (h' | h') <;> [exact ha h'; exact hb h']
    have hg2 : ¬(b = "" ∨ a = "") := by rintro (h' | h') <;> [exact hb h'; exact ha h']
    unfold calculate_match_score
    rw [if_neg hg1, if_neg hg2, if_pos hv, if_pos hv']
  · have hv' : vocab b a ≠ ∅ := by rw [← vocab_comm]; exact hv
    rw [score_normal ha hb hv, score_normal hb ha hv', cosineSim_comm]

theorem calculate_match_score_symm_witness :
    (("aa cc" : String) ≠ "" ∧ ("bb" : String) ≠ "") ∧
      calculate_match_score "aa cc" "bb" = calculate_match_score "bb" "aa cc" :=
  ⟨⟨by decide, by decide⟩, calculate_match_score_symm "aa cc" "bb" (by decide) (by decide)⟩

/-- C5: scoring a non-empty document against itself yields 100, provided the
document has at least one token that survives stop-word removal (so the
vectorizer's vocabulary is non-empty and no `ValueError` is raised): both
TF-IDF vectors coincide, every term has document frequency 2 and hence
idf 1, and the cosine of a non-zero vector with itself is exactly 1. -/
theorem calculate_match_score_self (a : String) (ha : a ≠ "")
    (hnz : filteredTokens a ≠ []) : calculate_match_score a a = some 100 := by
  refine score_self ha ?_
  rw [vocab_self]
  simpa using hnz

theorem calculate_match_score_self_witness :
    (("python" : String) ≠ "" ∧ filteredTokens "python" ≠ []) ∧
      calculate_match_score "python" "python" = some 100 :=
  ⟨⟨by decide, by decide⟩,
    calculate_match_score_self "python" (by decide) (by decide)⟩

/-- C6 (counterexample): the claim "every pair of non-empty documents sharing
no non-stop-word tokens scores 0" fails when neither document contributes a
vocabulary term: for `A = B = "the"` (non-empty, and the two documents share
no non-stop-word tokens since "the" is a stop word) `fit_transform` raises
`ValueError: empty vocabulary` (modelled as `none`), so the scorer does not
return 0. -/
theorem calculate_match_score_disjoint_counterexample :
    ("the" : String) ≠ "" ∧
      (∀ t, t ∈ filteredTokens "the" → t ∉ filteredTokens "the") ∧
      calculate_match_score "the" "the" = none := by
  refine ⟨by decide, ?_, ?_⟩
  · intro t ht
    rw [show filteredTokens "the" = [] from by decide] at ht
    exact absurd ht (List.not_mem_nil t)
  · unfold calculate_match_score
    rw [if_neg (by decide), if_pos (by decide)]

/-- C6 (amended): for every pair of non-empty documents that share no
non-stop-word tokens, and at least one of which contributes a term to the
vectorizer's vocabulary (so no `ValueError` is raised), the scorer returns 0:
the two TF-IDF vectors have disjoint supports, so their dot product and hence
the cosine is 0. -/
theorem calculate_match_score_disjoint_zero (a b : String) (ha : a ≠ "")
    (hb : b ≠ "") (hd : ∀ t, t ∈ filteredTokens a → t ∉ filteredTokens b)
    (hv : vocab a b ≠ ∅) : calculate_match_score a b = some 0 :=
  score_disjoint ha hb hd hv

theorem calculate_match_score_disjoint_zero_witness :
    (("python" : String) ≠ "" ∧ ("java" : String) ≠ "" ∧
        vocab "python" "java" ≠ ∅) ∧
      calculate_match_score "python" "java" = some 0 := by
  have hd : ∀ t, t ∈ filteredTokens "python" → t ∉ filteredTokens "java" := by
    intro t ht
    rw [show filteredTokens "python" = ["python"] from by decide] at ht
    rw [List.mem_singleton] at ht
    subst ht
    decide
  exact ⟨⟨by decide, by decide, by decide⟩,
    calculate_match_score_disjoint_zero "python" "java" (by decide) (by decide)
      hd (by decide)⟩

/-! ### Claim C3: truncation, not rounding -/

lemma idf_eq_one_of_df_two {a b t : String} (h : df a b t = 2) :
    idf a b t = 1 := by
  unfold idf
  rw [h]
  have h3 : (3 : ℝ) / (1 + ((2 : ℕ) : ℝ)) = 1 := by norm_num
  rw [h3, Real.log_one]
  norm_num

lemma cosineSim_concrete : cosineSim "aa bb" "aa bb bb" = 3 / Real.sqrt 10 := by
  have hvoc : vocab "aa bb" "aa bb bb" = {"aa", "bb"} := by decide
  have hne : ("aa" : String) ∉ ({"bb"} : Finset String) := by decide
  have i1 : idf "aa bb" "aa bb bb" "aa" = 1 := idf_eq_one_of_df_two (by decide)
  have i2 : idf "aa bb" "aa bb bb" "bb" = 1 := idf_eq_one_of_df_two (by decide)
  have t1 : tf "aa bb" "aa" = 1 := by decide
  have t2 : tf "aa bb" "bb" = 1 := by decide
  have t3 : tf "aa bb bb" "aa" = 1 := by decide
  have t4 : tf "aa bb bb" "bb" = 2 := by decide
  have w1 : tfidf "aa bb" "aa bb bb" "aa bb" "aa" = 1 := by
    unfold tfidf; rw [t1, i1]; norm_num
  have w2 : tfidf "aa bb" "aa bb bb" "aa bb" "bb" = 1 := by
    unfold tfidf; rw [t2, i2]; norm_num
  have w3 : tfidf "aa bb" "aa bb bb" "aa bb bb" "aa" = 1 := by
    unfold tfidf; rw [t3, i1]; norm_num
  have w4 : tfidf "aa bb" "aa bb bb" "aa bb bb" "bb" = 2 := by
    unfold tfidf; rw [t4, i2]; norm_num
  have hdot : dotProd "aa bb" "aa bb bb" = 3 := by
    unfold dotProd
    rw [hvoc, Finset.sum_insert hne, Finset.sum_singleton, w1, w2, w3, w4]
    norm_num
  have hA : sqNorm "aa bb" "aa bb bb" "aa bb" = 2 := by
    unfold sqNorm
    rw [hvoc, Finset.sum_insert hne, Finset.sum_singleton, w1, w2]
    norm_num
  have hB : sqNorm "aa bb" "aa bb bb" "aa bb bb" = 5 := by
    unfold sqNorm
    rw [hvoc, Finset.sum_insert hne, Finset.sum_singleton, w3, w4]
    norm_num
  unfold cosineSim
  rw [hdot, hA, hB, ← Real.sqrt_mul (by norm_num : (0:ℝ) ≤ 2)]
  norm_num

lemma floor_concrete : ⌊3 / Real.sqrt 10 * 100⌋ = 94 := by
  have hs : Real.sqrt 10 ^ 2 = 10 := Real.sq_sqrt (by norm_num)
  have hs0 : (0 : ℝ) < Real.sqrt 10 := Real.sqrt_pos.2 (by norm_num)
  rw [Int.floor_eq_iff]
  constructor
  · rw [div_mul_eq_mul_div, le_div_iff₀ hs0]
    push_cast
    nlinarith [hs, hs0]
  · rw [div_mul_eq_mul_div, div_lt_iff₀ hs0]
    push_cast
    nlinarith [hs, hs0]

lemma round_concrete : round (3 / Real.sqrt 10 * 100) = 95 := by
  have hs : Real.sqrt 10 ^ 2 = 10 := Real.sq_sqrt (by norm_num)
  have hs0 : (0 : ℝ) < Real.sqrt 10 := Real.sqrt_pos.2 (by norm_num)
  rw [round_eq, Int.floor_eq_iff]
  constructor
  · have : (95 : ℝ) - 1 / 2 ≤ 3 / Real.sqrt 10 * 100 := by
      rw [div_mul_eq_mul_div, le_div_iff₀ hs0]
      nlinarith [hs, hs0]
    push_cast
    linarith
  · have : 3 / Real.sqrt 10 * 100 < (95 : ℝ) + 1 / 2 := by
      rw [div_mul_eq_mul_div, div_lt_iff₀ hs0]
      nlinarith [hs, hs0]
    push_cast
    linarith

/-- C3: `calculate_match_score` converts the cosine to an integer percentage
by truncation toward zero, i.e. `floor(cosine * 100)` (Python's `int()` on the
nonnegative cosine), never by rounding to nearest: on every normal return the
result equals the floor, and on the concrete pair `("aa bb", "aa bb bb")`,
whose cosine is `3/sqrt 10 ≈ 0.9487`, the scorer returns 94 while rounding to
nearest would give 95. -/
theorem calculate_match_score_truncation :
    (∀ a b : String, a ≠ "" → b ≠ "" → vocab a b ≠ ∅ →
        calculate_match_score a b = some ⌊cosineSim a b * 100⌋) ∧
      calculate_match_score "aa bb" "aa bb bb" = some 94 ∧
      round (cosineSim "aa bb" "aa bb bb" * 100) = 95 := by
  refine ⟨fun a b ha hb hv => score_normal ha hb hv, ?_, ?_⟩
  · rw [score_normal (by decide) (by decide) (by decide), cosineSim_concrete,
      floor_concrete]
  · rw [cosineSim_concrete]
    exact round_concrete

theorem calculate_match_score_truncation_witness :
    (("aa" : String) ≠ "" ∧ ("bb" : String) ≠ "" ∧ vocab "aa" "bb" ≠ ∅) ∧
      calculate_match_score "aa" "bb" = some ⌊cosineSim "aa" "bb" * 100⌋ :=
  ⟨⟨by decide, by decide, by decide⟩,
    calculate_match_score_truncation.1 "aa" "bb" (by decide) (by decide) (by decide)⟩

/-!
### Resume parsing (`parse_resume`, app.py lines 45-63)

The PDF and DOCX libraries (`PyPDF2`, `python-docx`) are external
collaborators: their behaviour on the uploaded bytes is a parameter of the
model.  `PyPDF2.PdfReader` construction may raise, and each page's
`extract_text()` may raise, so a PDF parse is `Bytes → Except` of a list of
per-page `Except` outcomes; `docx.Document` construction may raise and then
yields paragraph texts.  `st.error(...)` calls are collected in `errors`; the
Python exception never escapes `parse_resume` because the whole body is one
`try/except Exception`.
-/

/-- Raw bytes of the uploaded file (`file.read()`). -/
abbrev Bytes := List Nat

/-- Streamlit's `UploadedFile` as used by `parse_resume`: a filename and the
bytes returned by `file.read()`. -/
structure UploadedFile where
  name : String
  content : Bytes

/-- The extension part of `os.path.splitext(path)` (CPython
`genericpath._splitext` with `/` as separator): the suffix from the last dot
of the last path component, except that leading dots of that component are
not an extension. -/
def splitextExt (path : String) : String :=
  let baseRev := path.data.reverse.takeWhile (fun c => c ≠ '/')
  let pre := baseRev.takeWhile (fun c => c ≠ '.')
  if pre.length = baseRev.length then ""
  else if (baseRev.drop (pre.length + 1)).any (fun c => c ≠ '.') then
    String.mk ('.' :: pre.reverse)
  else ""

/-- Behaviour of the external document-parsing collaborators on given bytes. -/
structure Parsers where
  pdfReader : Bytes → Except String (List (Except String String))
  docxParagraphs : Bytes → Except String (List String)

/-- The PDF page loop `for page in pdf_reader.pages: text += page.extract_text()`
with accumulator `acc`: concatenates the page texts, propagating the first
raised exception (and discarding the partial text accumulated so far). -/
def pdfConcat (acc : String) : List (Except String String) → Except String String
  | [] => Except.ok acc
  | page :: pages =>
    match page with
    | Except.ok t => pdfConcat (acc ++ t) pages
    | Except.error e => Except.error e

/-- The body of `parse_resume`'s `try` block: dispatch on the filename
extension, concatenate page texts (PDF) or paragraph texts plus newlines
(DOCX), and return `none` for any other extension (`return None  # Unsupported
file type`).  An `Except.error` is a raised Python exception. -/
def extractText (P : Parsers) (file : UploadedFile) : Except String (Option String) :=
  if splitextExt file.name = ".pdf" then do
    let pages ← P.pdfReader file.content
    let text ← pdfConcat "" pages
    pure (some text)
  else if splitextExt file.name = ".docx" then do
    let paras ← P.docxParagraphs file.content
    pure (some (paras.foldl (fun acc para => acc ++ para ++ "\n") ""))
  else
    pure none

/-- Result of `parse_resume`: the returned value plus the `st.error` messages
shown to the user. -/
structure ParseOutcome where
  result : Option String
  errors : List String
deriving DecidableEq

/-- app.py lines 45-63, `parse_resume(file)`: run the `try` body; on a raised
exception, show `st.error(f"Error parsing file: ...")` with the cause and
return `None`. -/
def parse_resume (P : Parsers) (file : UploadedFile) : ParseOutcome :=
  match extractText P file with
  | Except.ok r => ⟨r, []⟩
  | Except.error e => ⟨none, ["Error parsing file: " ++ e]⟩

/-- C7: for every uploaded file whose extension is neither `.pdf` nor
`.docx`, `parse_resume` returns the sentinel `None` and extracts no text: the
result is `none` with no error message, for every possible behaviour `P` of
the parsing libraries (so neither library is consulted). -/
theorem parse_resume_unsupported (P : Parsers) (file : UploadedFile)
    (h1 : splitextExt file.name ≠ ".pdf") (h2 : splitextExt file.name ≠ ".docx") :
    parse_resume P file = ⟨none, []⟩ := by
  unfold parse_resume extractText
  rw [if_neg h1, if_neg h2]
  rfl

theorem parse_resume_unsupported_witness :
    (splitextExt "resume.txt" ≠ ".pdf" ∧ splitextExt "resume.txt" ≠ ".docx") ∧
      parse_resume
        ⟨fun _ => Except.error "broken", fun _ => Except.error "broken"⟩
        ⟨"resume.txt", [0, 1, 2]⟩ = ⟨none, []⟩ :=
  ⟨⟨by decide, by decide⟩,
    parse_resume_unsupported _ _ (by decide) (by decide)⟩


lemma pdfConcat_error (e : String) (ok : List String)
    (rest : List (Except String String)) : ∀ acc : String,
    pdfConcat acc (List.map Except.ok ok ++ Except.error e :: rest) =
      Except.error e := by
  induction ok with
  | nil => intro acc; rfl
  | cons p ps ih => intro acc; simpa [pdfConcat] using ih (acc ++ p)

lemma extractText_pdf_error {P : Parsers} {file : UploadedFile} {e : String}
    (hext : splitextExt file.name = ".pdf")
    (hr : P.pdfReader file.content = Except.error e ∨
      ∃ ok rest, P.pdfReader file.content =
        Except.ok (List.map Except.ok ok ++ Except.error e :: rest)) :
    extractText P file = Except.error e := by
  unfold extractText
  rw [if_pos hext]
  rcases hr with hr | ⟨ok, rest, hr⟩
  · rw [hr]
    rfl
  · rw [hr]
    show (pdfConcat "" (List.map Except.ok ok ++ Except.error e :: rest) >>=
        fun text => pure (some text) : Except String (Option String)) = Except.error e
    rw [pdfConcat_error]
    rfl

lemma extractText_docx_error {P : Parsers} {file : UploadedFile} {e : String}
    (hext : splitextExt file.name = ".docx")
    (hr : P.docxParagraphs file.content = Except.error e) :
    extractText P file = Except.error e := by
  unfold extractText
  rw [if_neg (by rw [hext]; decide), if_pos hext, hr]
  rfl

lemma parse_resume_of_extract_error {P : Parsers} {file : UploadedFile}
    {e : String} (h : extractText P file = Except.error e) :
    parse_resume P file = ⟨none, ["Error parsing file: " ++ e]⟩ := by
  unfold parse_resume
  rw [h]

/-- C8: whenever the underlying PDF/DOCX parser raises on the uploaded bytes
(`PyPDF2.PdfReader` construction or a page's `extract_text()` for `.pdf`;
`docx.Document` construction for `.docx`), `parse_resume` catches the
exception at the collaborator boundary, surfaces exactly one user-visible
`st.error` message consisting of `"Error parsing file: "` followed by the
underlying cause text `e`, returns the failure sentinel `None`, and keeps no
partial text (pages extracted before the raise are discarded); the exception
never propagates, since `parse_resume` always returns a `ParseOutcome` and
invokes each collaborator at most once (no retry). -/
theorem parse_resume_exception_boundary (P : Parsers) (file : UploadedFile)
    (e : String) :
    (splitextExt file.name = ".pdf" →
      (P.pdfReader file.content = Except.error e ∨
        ∃ ok rest, P.pdfReader file.content =
          Except.ok (List.map Except.ok ok ++ Except.error e :: rest)) →
      parse_resume P file = ⟨none, ["Error parsing file: " ++ e]⟩) ∧
    (splitextExt file.name = ".docx" →
      P.docxParagraphs file.content = Except.error e →
      parse_resume P file = ⟨none, ["Error parsing file: " ++ e]⟩) :=
  ⟨fun hext hr => parse_resume_of_extract_error (extractText_pdf_error hext hr),
    fun hext hr => parse_resume_of_extract_error (extractText_docx_error hext hr)⟩

theorem parse_resume_exception_boundary_witness :
    splitextExt "cv.pdf" = ".pdf" ∧
      parse_resume
        ⟨fun _ => Except.ok [Except.ok "Education", Except.error "EOF marker not found"],
          fun _ => Except.ok []⟩
        ⟨"cv.pdf", [37, 80]⟩ =
        ⟨none, ["Error parsing file: " ++ "EOF marker not found"]⟩ :=
  ⟨by decide,
    (parse_resume_exception_boundary _ ⟨"cv.pdf", [37, 80]⟩ "EOF marker not found").1
      (by decide) (Or.inr ⟨["Education"], [], rfl⟩)⟩

/-!
### Keyword ranker (C9)

Modelled from the spec: the keyword-frequency script containing `rank` is part
of the repository but absent from `src/` (only `app.py` is present), so the
ranker is reconstructed from §4.2 of the spec: count occurrences of each
distinct token; order distinct tokens by descending count, ties keeping the
order in which each token first appeared (a stable descending sort); truncate
to `limit` entries (default 25).
-/

/-- Modelled from the spec: the distinct tokens in order of first appearance
(the tie-breaking order §4.2 requires of the stable count). -/
def firstAppearanceOrder (tokens : List String) : List String :=
  tokens.foldl (fun acc t => if t ∈ acc then acc else acc ++ [t]) []

/-- Modelled from the spec: `rank(tokens, limit)` of §4.2.  The insertion
sort with relation "my count is at least yours" is a stable descending sort,
so ties keep their first-appearance order. -/
def rank (tokens : List String) (limit : ℕ) : List (String × ℕ) :=
  ((List.insertionSort (fun t u => tokens.count u ≤ tokens.count t)
      (firstAppearanceOrder tokens)).map
    (fun t => (t, tokens.count t))).take limit

lemma foldl_firstAppearance_of_disjoint :
    ∀ (tokens acc : List String), tokens.Nodup → (∀ t ∈ tokens, t ∉ acc) →
      tokens.foldl (fun acc t => if t ∈ acc then acc else acc ++ [t]) acc =
        acc ++ tokens := by
  intro tokens
  induction tokens with
  | nil => intro acc _ _; simp
  | cons x xs ih =>
    intro acc hnd hdisj
    have hx : x ∉ acc := hdisj x (List.mem_cons_self x xs)
    simp only [List.foldl_cons, if_neg hx]
    rw [ih (acc ++ [x]) (List.nodup_cons.1 hnd).2]
    · simp
    · intro t ht
      rw [List.mem_append, List.mem_singleton]
      rintro (h | h)
      · exact hdisj t (List.mem_cons_of_mem x ht) h
      · exact (List.nodup_cons.1 hnd).1 (h ▸ ht)

lemma firstAppearanceOrder_of_nodup {tokens : List String} (h : tokens.Nodup) :
    firstAppearanceOrder tokens = tokens := by
  unfold firstAppearanceOrder
  rw [foldl_firstAppearance_of_disjoint tokens [] h (fun t _ ht => (List.not_mem_nil t ht).elim)]
  simp

lemma insertionSort_of_all_rel (r : String → String → Prop) [DecidableRel r] :
    ∀ l : List String, (∀ x ∈ l, ∀ y ∈ l, r x y) →
      List.insertionSort r l = l := by
  intro l
  induction l with
  | nil => intro _; rfl
  | cons a l ih =>
    intro hall
    have hl : List.insertionSort r l = l :=
      ih fun x hx y hy =>
        hall x (List.mem_cons_of_mem a hx) y (List.mem_cons_of_mem a hy)
    show List.orderedInsert r a (List.insertionSort r l) = a :: l
    rw [hl]
    cases l with
    | nil => rfl
    | cons b l' =>
      exact List.orderedInsert_of_le r l'
        (hall a (List.mem_cons_self _ _) b (List.mem_cons_of_mem a (List.mem_cons_self _ _)))

/-- C9: for every token sequence, `rank(tokens, 25)` has at most 25 entries;
its entries are sorted by non-increasing frequency; and for a token sequence
with no repeated tokens the output order equals first-appearance order (the
output is the first 25 tokens, each with count 1's order preserved). -/
theorem rank_props (tokens : List String) :
    (rank tokens 25).length ≤ 25 ∧
      List.Pairwise (fun p q : String × ℕ => q.2 ≤ p.2) (rank tokens 25) ∧
      (tokens.Nodup → (rank tokens 25).map Prod.fst = tokens.take 25) := by
  refine ⟨?_, ?_, ?_⟩
  · rw [rank, List.length_take]
    exact min_le_left _ _
  · apply List.Pairwise.sublist (List.take_sublist _ _)
    rw [List.pairwise_map]
    haveI : IsTotal String (fun t u => tokens.count u ≤ tokens.count t) :=
      ⟨fun a b => le_total _ _⟩
    haveI : IsTrans String (fun t u => tokens.count u ≤ tokens.count t) :=
      ⟨fun a b c h1 h2 => le_trans h2 h1⟩
    exact List.sorted_insertionSort _ _
  · intro hnd
    rw [rank, firstAppearanceOrder_of_nodup hnd,
      insertionSort_of_all_rel _ tokens
        (fun x hx y hy => by
          rw [List.count_eq_one_of_mem hnd hx, List.count_eq_one_of_mem hnd hy]),
      ← List.map_take, List.map_map]
    rw [show (Prod.fst ∘ fun t => (t, tokens.count t)) = id from funext fun t => rfl,
      List.map_id]

theorem rank_props_witness :
    (rank ["python", "aws", "docker"] 25).length ≤ 25 ∧
      List.Pairwise (fun p q : String × ℕ => q.2 ≤ p.2)
        (rank ["python", "aws", "docker"] 25) ∧
      (rank ["python", "aws", "docker"] 25).map Prod.fst =
        (["python", "aws", "docker"] : List String).take 25 :=
  have h := rank_props ["python", "aws", "docker"]
  ⟨h.1, h.2.1, h.2.2 (by decide)⟩

/-!
### Job matcher (`run_job_matcher`, app.py lines 112-152)

The LLM query generation (lines 114-126) and the Tavily web search (line 131)
are external collaborators; the model takes the search-result list they
produce as input.  Each Python result dict is read with `result.get(key,
default)`, modelled by `Option.getD`.  Results with an empty content snippet
are skipped (`if description:`); every kept result is scored against the
resume (the `if score > 40` filter was removed, per the comment at lines
141-142); `matched_jobs.sort(key=lambda x: x['score'], reverse=True)` is
Python's stable descending sort, i.e. insertion sort with the relation "my
score is at least yours"; `[:5]` keeps the top 5.  A raised `ValueError` from
`calculate_match_score` propagates out of `run_job_matcher` (modelled as
`none`).
-/

/-- One Tavily search result: a dict whose `title`, `url` and `content` keys
may be absent. -/
structure SearchResult where
  title : Option String
  url : Option String
  content : Option String

/-- One entry of `matched_jobs`. -/
structure MatchedJob where
  title : String
  url : String
  description : String
  score : ℤ

/-- The accumulation loop of app.py lines 133-148 over the search results,
in list order; `none` models an exception raised while scoring. -/
noncomputable def buildMatchedJobs (resume_text : String) :
    List SearchResult → Option (List MatchedJob)
  | [] => some []
  | r :: rs =>
    let description := r.content.getD ""
    if description = "" then buildMatchedJobs resume_text rs
    else do
      let score ← calculate_match_score resume_text description
      let rest ← buildMatchedJobs resume_text rs
      pure (⟨r.title.getD "No Title", r.url.getD "#", description, score⟩ :: rest)

/-- app.py lines 112-152, `run_job_matcher(resume_text)` from the point where
the search results are in hand: build `matched_jobs`, sort by score in
descending order, return the top 5. -/
noncomputable def run_job_matcher (resume_text : String)
    (search_results : List SearchResult) : Option (List MatchedJob) :=
  (buildMatchedJobs resume_text search_results).map
    (fun jobs =>
      (List.insertionSort (fun x y => y.score ≤ x.score) jobs).take 5)

lemma buildMatchedJobs_descriptions {resume_text : String} :
    ∀ {results : List SearchResult} {js : List MatchedJob},
      buildMatchedJobs resume_text results = some js →
      ∀ j ∈ js, j.description ≠ "" := by
  intro results
  induction results with
  | nil =>
    intro js h j hj
    rw [buildMatchedJobs] at h
    cases Option.some.inj h
    exact absurd hj (List.not_mem_nil j)
  | cons r rs ih =>
    intro js h j hj
    rw [buildMatchedJobs] at h
    by_cases hd : r.content.getD "" = ""
    · rw [if_pos hd] at h
      exact ih h j hj
    · rw [if_neg hd] at h
      cases hc : calculate_match_score resume_text (r.content.getD "") with
      | none =>
        rw [hc] at h
        simp at h
      | some score =>
        rw [hc] at h
        cases hr : buildMatchedJobs resume_text rs with
        | none =>
          rw [hr] at h
          simp at h
        | some rest =>
          rw [hr] at h
          have h2 : (⟨r.title.getD "No Title", r.url.getD "#",
              r.content.getD "", score⟩ :: rest : List MatchedJob) = js :=
            Option.some.inj h
          subst h2
          rcases List.mem_cons.1 hj with hj | hj
          · subst hj
            exact hd
          · exact ih hr j hj

/-- C10: whenever `run_job_matcher` returns normally, it returns at most 5
job entries, every returned entry has a non-empty content snippet as its
description, and the entries are ordered by non-increasing match score. -/
theorem run_job_matcher_props (resume_text : String)
    (results : List SearchResult) (jobs : List MatchedJob)
    (h : run_job_matcher resume_text results = some jobs) :
    jobs.length ≤ 5 ∧ (∀ j ∈ jobs, j.description ≠ "") ∧
      List.Pairwise (fun x y : MatchedJob => y.score ≤ x.score) jobs := by
  rw [run_job_matcher, Option.map_eq_some'] at h
  obtain ⟨js, hjs, hjobs⟩ := h
  subst hjobs
  refine ⟨?_, ?_, ?_⟩
  · rw [List.length_take]
    exact min_le_left _ _
  · intro j hj
    have hj' : j ∈ List.insertionSort (fun x y => y.score ≤ x.score) js :=
      List.Sublist.mem hj (List.take_sublist _ _)
    have hj'' : j ∈ js :=
      (List.Perm.mem_iff (List.perm_insertionSort _ _)).1 hj'
    exact buildMatchedJobs_descriptions hjs j hj''
  · apply List.Pairwise.sublist (List.take_sublist _ _)
    haveI : IsTotal MatchedJob (fun x y => y.score ≤ x.score) :=
      ⟨fun a b => le_total _ _⟩
    haveI : IsTrans MatchedJob (fun x y => y.score ≤ x.score) :=
      ⟨fun a b c h1 h2 => le_trans h2 h1⟩
    exact List.sorted_insertionSort _ _

theorem run_job_matcher_props_witness :
    run_job_matcher "python developer"
        [⟨some "Job A", some "urlA", none⟩, ⟨none, none, some ""⟩] =
      some [] ∧
      ([] : List MatchedJob).length ≤ 5 ∧
      (∀ j ∈ ([] : List MatchedJob), j.description ≠ "") ∧
      List.Pairwise (fun x y : MatchedJob => y.score ≤ x.score)
        ([] : List MatchedJob) :=
  have h : run_job_matcher "python developer"
      [⟨some "Job A", some "urlA", none⟩, ⟨none, none, some ""⟩] = some [] := rfl
  ⟨h, run_job_matcher_props "python developer" _ [] h⟩
